import Mathlib

/-!
Verification development for the TStar adaptive frame-search repository
(source files: TStar/TStarFramework.py and TStar/utilites.py).

Python numbers are modelled over ℚ (exact arithmetic standing in for IEEE
doubles at the granularity of the properties below), machine integers over
ℕ/ℤ, and fallible Python code returns Except.  External collaborators
(scipy's FITPACK spline fit, numpy's random generator, OpenCV frame
decoding) are modelled at their interface: the spline fit is an abstract
function parameter, the random generator an explicit stream of uniform
draws, and a video a pair (openable flag, frame count).
-/

/-- Errors that TStarFramework.spline_scores can raise: a Python IndexError
from indexing score_distribution out of range, and the ValueError raised by
scipy's UnivariateSpline when given at most k = 3 data points (the source
calls it with the default cubic degree k = 3, which requires more than
3 anchors). -/
inductive SplineErr where
  | indexError : SplineErr
  | tooFewPoints : SplineErr
deriving DecidableEq

/-- Indices the searcher has visited: the source marks index idx visited when
non_visiting_frames[idx] == 0, and spline_scores collects them with
[idx for idx, visited in enumerate(non_visiting_frames) if visited == 0]. -/
def visitedIndices (non_visiting_frames : List ℕ) : List ℕ :=
  (non_visiting_frames.enum.filter (fun p => p.2 == 0)).map Prod.fst

/-- Embedding of the list comprehension
[score_distribution[idx] for idx in frame_indices]: Python list indexing
raises IndexError when idx is out of range. -/
def lookupScores (score_distribution : List ℚ) : List ℕ → Except SplineErr (List ℚ)
  | [] => .ok []
  | i :: is =>
    match score_distribution.get? i with
    | none => .error .indexError
    | some v =>
      match lookupScores score_distribution is with
      | .error e => .error e
      | .ok vs => .ok (v :: vs)

/-- Shallow embedding of TStarFramework.spline_scores.  The scipy smoothing
spline is external code, abstracted as the parameter fit: given the anchor
indices, the anchor scores and the smoothing factor s it yields the fitted
curve as a function of the evaluation index.  The source's constants: the
smoothing factor is s = 0.8 (4/5 here) and the uniform fallback entry is
1/video_length (np.ones(video_length) / video_length).  scipy's
UnivariateSpline with the default degree k = 3 raises when it receives
3 or fewer data points, which the source does not guard against. -/
def spline_scores (fit : List ℕ → List ℚ → ℚ → ℕ → ℚ)
    (score_distribution : List ℚ) (non_visiting_frames : List ℕ)
    (video_length : ℕ) : Except SplineErr (List ℚ) :=
  match lookupScores score_distribution (visitedIndices non_visiting_frames) with
  | .error e => .error e
  | .ok observed_scores =>
    if (visitedIndices non_visiting_frames).length = 0 then
      .ok (List.replicate video_length ((1 : ℚ) / (video_length : ℚ)))
    else if (visitedIndices non_visiting_frames).length ≤ 3 then
      .error .tooFewPoints
    else
      .ok ((List.range video_length).map
        (fun i => fit (visitedIndices non_visiting_frames) observed_scores (4/5) i))

/-- Sample spline fit used to instantiate the abstract scipy parameter in
concrete evaluations: it ignores its anchors and returns 0 everywhere. -/
def fit0 : List ℕ → List ℚ → ℚ → ℕ → ℚ := fun _ _ _ _ => 0

lemma visitedIndices_eq_nil (nvf : List ℕ) (h : ∀ x ∈ nvf, x ≠ 0) :
    visitedIndices nvf = [] := by
  unfold visitedIndices
  rw [List.map_eq_nil_iff, List.filter_eq_nil_iff]
  rintro ⟨i, x⟩ hmem
  have hx : x ∈ nvf := by
    obtain ⟨hi, hget⟩ := List.mem_enum hmem
    exact hget ▸ List.getElem_mem hi
  simpa using h x hx

lemma lookupScores_congr (sd1 sd2 : List ℚ) (is : List ℕ)
    (h : ∀ i ∈ is, sd1.get? i = sd2.get? i) :
    lookupScores sd1 is = lookupScores sd2 is := by
  induction is with
  | nil => rfl
  | cons i is ih =>
    have h1 : sd1.get? i = sd2.get? i := h i (List.mem_cons_self i is)
    have h2 := ih (fun j hj => h j (List.mem_cons_of_mem i hj))
    simp only [lookupScores, h1, h2]

lemma lookupScores_of_lt (sd : List ℚ) (is : List ℕ)
    (h : ∀ i ∈ is, i < sd.length) :
    lookupScores sd is = .ok (is.map (fun i => sd.getD i 0)) := by
  induction is with
  | nil => rfl
  | cons i is ih =>
    have hi : i < sd.length := h i (List.mem_cons_self i is)
    have h2 := ih (fun j hj => h j (List.mem_cons_of_mem i hj))
    simp only [lookupScores, List.get?_eq_get hi, h2, List.map_cons]
    have : sd.getD i 0 = sd.get ⟨i, hi⟩ := by
      simp [List.getD_eq_getElem?_getD, List.getElem?_eq_getElem hi]
    rw [this]

/-- Claim C3: for every score distribution and every visited mask in which
zero frame indices are marked visited (every mask entry nonzero), and for
every spline fit, spline_scores returns np.ones(video_length)/video_length
(every entry 1/video_length) without raising; the degenerate case does not
propagate an error to the caller. -/
theorem C3_zero_visited_returns_uniform
    (fit : List ℕ → List ℚ → ℚ → ℕ → ℚ) (sd : List ℚ) (nvf : List ℕ) (L : ℕ)
    (h : ∀ x ∈ nvf, x ≠ 0) :
    spline_scores fit sd nvf L =
      .ok (List.replicate L ((1 : ℚ) / (L : ℚ))) := by
  unfold spline_scores
  rw [visitedIndices_eq_nil nvf h]
  rfl

theorem C3_witness :
    (∀ x ∈ [1, 1, 1], x ≠ 0) ∧
    spline_scores fit0 [1/3, 1/3, 1/3] [1, 1, 1] 3 =
      .ok (List.replicate 3 ((1 : ℚ) / ((3 : ℕ) : ℚ))) :=
  ⟨by decide, C3_zero_visited_returns_uniform fit0 [1/3, 1/3, 1/3] [1, 1, 1] 3 (by decide)⟩

/-- Claim C5: extrapolation uses only visited points as anchors: for any two
score distributions that agree (as Python lookups) at every index marked
visited in a shared mask, and for every spline fit, spline_scores produces
identical outputs. -/
theorem C5_depends_only_on_visited
    (fit : List ℕ → List ℚ → ℚ → ℕ → ℚ) (sd1 sd2 : List ℚ)
    (nvf : List ℕ) (L : ℕ)
    (h : ∀ i ∈ visitedIndices nvf, sd1.get? i = sd2.get? i) :
    spline_scores fit sd1 nvf L = spline_scores fit sd2 nvf L := by
  unfold spline_scores
  rw [lookupScores_congr sd1 sd2 _ h]

theorem C5_witness :
    (∀ i ∈ visitedIndices [0, 0, 0, 0, 1],
      ([1, 2, 3, 4, 10] : List ℚ).get? i = ([1, 2, 3, 4, 20] : List ℚ).get? i) ∧
    spline_scores fit0 [1, 2, 3, 4, 10] [0, 0, 0, 0, 1] 5 =
      spline_scores fit0 [1, 2, 3, 4, 20] [0, 0, 0, 0, 1] 5 :=
  ⟨by decide,
   C5_depends_only_on_visited fit0 [1, 2, 3, 4, 10] [1, 2, 3, 4, 20]
     [0, 0, 0, 0, 1] 5 (by decide)⟩

/-- Claim C1 counterexample: with exactly one visited index (mask [0, 1],
index 0 visited), spline_scores raises the UnivariateSpline too-few-points
error instead of returning the uniform vector, refuting the claim that any
visited count under 2 yields the uniform distribution without raising. -/
theorem C1_counterexample :
    spline_scores fit0 [1/2, 1/2] [0, 1] 2 = .error .tooFewPoints ∧
    spline_scores fit0 [1/2, 1/2] [0, 1] 2 ≠
      .ok (List.replicate 2 ((1 : ℚ) / ((2 : ℕ) : ℚ))) :=
  ⟨rfl, fun h => Except.noConfusion h⟩

/-- Claim C1 (amended): for every spline fit, score distribution and mask:
with zero visited indices spline_scores returns the uniform vector
1/total_frame_num without raising, but with exactly one visited index (in
range of the score distribution) it raises scipy's UnivariateSpline error
(a cubic smoothing spline needs more than k = 3 anchors) rather than
returning the uniform vector. -/
theorem C1_amended_degenerate_extrapolation
    (fit : List ℕ → List ℚ → ℚ → ℕ → ℚ) (sd : List ℚ) (nvf : List ℕ) (L : ℕ) :
    ((∀ x ∈ nvf, x ≠ 0) →
      spline_scores fit sd nvf L =
        .ok (List.replicate L ((1 : ℚ) / (L : ℚ)))) ∧
    (∀ i, visitedIndices nvf = [i] → i < sd.length →
      spline_scores fit sd nvf L = .error .tooFewPoints) := by
  constructor
  · intro h
    unfold spline_scores
    rw [visitedIndices_eq_nil nvf h]
    rfl
  · intro i hvi hlt
    unfold spline_scores
    rw [hvi]
    simp [lookupScores, List.getElem?_eq_getElem hlt]

theorem C1_amended_witness :
    spline_scores fit0 [1/2, 1/2] [1, 1] 2 =
      .ok (List.replicate 2 ((1 : ℚ) / ((2 : ℕ) : ℚ))) ∧
    spline_scores fit0 [1/2, 1/2] [0, 1] 2 = .error .tooFewPoints :=
  ⟨(C1_amended_degenerate_extrapolation fit0 [1/2, 1/2] [1, 1] 2).1 (by decide),
   (C1_amended_degenerate_extrapolation fit0 [1/2, 1/2] [0, 1] 2).2 0
     (by decide) (by decide)⟩

/-- Visited (index, score) pairs of the belief store, scores read off the
score distribution (getD is safe here: it is only compared with the source
embedding under the in-range hypothesis). -/
def visitedPairs (sd : List ℚ) (nvf : List ℕ) : List (ℕ × ℚ) :=
  (nvf.enum.filter (fun p => p.2 == 0)).map (fun p => (p.1, sd.getD p.1 0))

/-- Reference extrapolation following the spec's words: fit a noise-tolerant
smoothing spline (the abstract fit, not exact interpolation) to the visited
(index, confidence) pairs sorted by index, with the hard-coded smoothing
parameter s = 0.8, and evaluate it at every index 0..video_length-1. -/
def extrapolate_ref (fit : List ℕ → List ℚ → ℚ → ℕ → ℚ)
    (sd : List ℚ) (nvf : List ℕ) (L : ℕ) : List ℚ :=
  (List.range L).map (fun i =>
    fit ((List.insertionSort (fun a b => a.1 ≤ b.1) (visitedPairs sd nvf)).map
          Prod.fst)
        ((List.insertionSort (fun a b => a.1 ≤ b.1) (visitedPairs sd nvf)).map
          Prod.snd)
        (4/5) i)

lemma enum_fst_pairwise {α : Type} (l : List α) :
    List.Pairwise (fun a b : ℕ × α => a.1 < b.1) l.enum := by
  have h := List.pairwise_lt_range l.length
  rw [← List.enum_map_fst l] at h
  exact List.pairwise_map.mp h

lemma visitedPairs_sorted (sd : List ℚ) (nvf : List ℕ) :
    List.Sorted (fun a b : ℕ × ℚ => a.1 ≤ b.1) (visitedPairs sd nvf) := by
  unfold visitedPairs
  exact List.Pairwise.map _ (fun a b hab => le_of_lt hab)
    ((enum_fst_pairwise nvf).filter _)

lemma visitedPairs_map_fst (sd : List ℚ) (nvf : List ℕ) :
    (visitedPairs sd nvf).map Prod.fst = visitedIndices nvf := by
  unfold visitedPairs visitedIndices
  rw [List.map_map]
  rfl

lemma visitedPairs_map_snd (sd : List ℚ) (nvf : List ℕ) :
    (visitedPairs sd nvf).map Prod.snd =
      (visitedIndices nvf).map (fun i => sd.getD i 0) := by
  unfold visitedPairs visitedIndices
  rw [List.map_map, List.map_map]
  rfl

/-- Claim C4: for every score distribution and visited mask with enough
visited indices for a spline fit (more than the cubic degree k = 3, with
all visited indices in range), spline_scores equals the reference
definition extrapolate_ref: fit the smoothing spline to the visited
(index, score) pairs in ascending index order with s = 0.8 and evaluate it
at every index 0..video_length-1. -/
theorem C4_spline_matches_reference
    (fit : List ℕ → List ℚ → ℚ → ℕ → ℚ) (sd : List ℚ) (nvf : List ℕ) (L : ℕ)
    (hrange : ∀ i ∈ visitedIndices nvf, i < sd.length)
    (hcount : 4 ≤ (visitedIndices nvf).length) :
    spline_scores fit sd nvf L = .ok (extrapolate_ref fit sd nvf L) := by
  unfold spline_scores extrapolate_ref
  rw [lookupScores_of_lt sd _ hrange]
  rw [List.Sorted.insertionSort_eq (visitedPairs_sorted sd nvf)]
  rw [visitedPairs_map_fst, visitedPairs_map_snd]
  have h0 : ¬ (visitedIndices nvf).length = 0 := by omega
  have h3 : ¬ (visitedIndices nvf).length ≤ 3 := by omega
  simp only [if_neg h0, if_neg h3]

theorem C4_witness :
    (∀ i ∈ visitedIndices [0, 0, 0, 0, 1], i < ([1, 2, 3, 4, 10] : List ℚ).length) ∧
    4 ≤ (visitedIndices [0, 0, 0, 0, 1]).length ∧
    spline_scores fit0 [1, 2, 3, 4, 10] [0, 0, 0, 0, 1] 5 =
      .ok (extrapolate_ref fit0 [1, 2, 3, 4, 10] [0, 0, 0, 0, 1] 5) :=
  ⟨by decide, by decide,
   C4_spline_matches_reference fit0 [1, 2, 3, 4, 10] [0, 0, 0, 0, 1] 5
     (by decide) (by decide)⟩

/-- Error raised in save_score_history_as_gif's history preamble: reading
non_visiting_history[-1] of an empty list is a Python IndexError. -/
inductive GifErr where
  | indexError : GifErr
deriving DecidableEq

/-- Shallow embedding of the effect of
TStarFramework.save_score_history_as_gif on the searcher's recorded
history (the method body before any rendering): it inserts an initial
score vector [0.2] * total_frame_num at position 0 of Score_history and
appends a duplicate of the last entry of non_visiting_history; no later
statement of the method undoes either mutation (the rest of the body only
reads the histories, plots, and writes image files). -/
def save_score_history_as_gif (total_frame_num : ℕ)
    (score_history : List (List ℚ)) (non_visiting_history : List (List ℕ)) :
    Except GifErr (List (List ℚ) × List (List ℕ)) :=
  match non_visiting_history.getLast? with
  | none => .error .indexError
  | some last =>
    .ok ((List.replicate total_frame_num ((2 : ℚ) / 10)) :: score_history,
         non_visiting_history ++ [last])

/-- Claim C2 counterexample: at the concrete searcher history
Score_history = [[1]], non_visiting_history = [[0]] with total_frame_num 1,
save_score_history_as_gif returns mutated histories ([[0.2], [1]],
[[0], [0]]), which differ from the original ([[1]], [[0]]): the recorded
per-iteration history does not stay unchanged. -/
theorem C2_counterexample :
    save_score_history_as_gif 1 [[1]] [[0]] =
      .ok ([List.replicate 1 ((2 : ℚ) / 10), [1]], [[0], [0]]) ∧
    ([List.replicate 1 ((2 : ℚ) / 10), [1]], ([[0], [0]] : List (List ℕ))) ≠
      (([[1]] : List (List ℚ)), ([[0]] : List (List ℕ))) := by
  refine ⟨rfl, ?_⟩
  intro h
  have hlen := congrArg (fun p => p.1.length) h
  simp at hlen

/-- Claim C2 (amended): save_score_history_as_gif does not leave the
searcher's recorded history unchanged: whenever non_visiting_history is
nonempty it returns Score_history with the initial 0.2-vector prepended
and non_visiting_history with its final entry duplicated, each one entry
longer than before the call. -/
theorem C2_amended_gif_mutates_history
    (total_frame_num : ℕ) (sh : List (List ℚ)) (nvh : List (List ℕ))
    (last : List ℕ) (h : nvh.getLast? = some last) :
    save_score_history_as_gif total_frame_num sh nvh =
      .ok ((List.replicate total_frame_num ((2 : ℚ) / 10)) :: sh,
           nvh ++ [last]) ∧
    ((List.replicate total_frame_num ((2 : ℚ) / 10)) :: sh).length =
      sh.length + 1 ∧
    (nvh ++ [last]).length = nvh.length + 1 := by
  refine ⟨?_, by simp, by simp⟩
  unfold save_score_history_as_gif
  rw [h]

theorem C2_amended_witness :
    (([[0]] : List (List ℕ)).getLast? = some [0]) ∧
    save_score_history_as_gif 1 [[1]] [[0]] =
      .ok ((List.replicate 1 ((2 : ℚ) / 10)) :: [[1]], [[0]] ++ [[0]]) :=
  ⟨by decide, (C2_amended_gif_mutates_history 1 [[1]] [[0]] [0] (by decide)).1⟩

/-- Rejection the spec prescribes for invalid configurations at run start;
the source never constructs it. -/
inductive ConfigErr where
  | invalidConfiguration : ConfigErr
deriving DecidableEq

/-- Embedding of video_path.split("/")[-1].split(".")[0] from __init__
(Python str.split always yields a nonempty list, so [-1] and [0] are the
last and head elements). -/
def python_basename_id (video_path : String) : String :=
  (((video_path.splitOn "/").getLastD "").splitOn ".").headD ""

/-- Configuration fields a constructed TStarFramework stores (the pure part
of __init__).  The remaining stored strings of the source constructor (the
output filename stem, config_path, checkpoint_path, device) are stored
unchanged in exactly the same way and carry no logic, so they are elided. -/
structure TStarFrameworkState where
  video_path : String
  question : String
  options : String
  search_nframes : ℤ
  grid_rows : ℤ
  grid_cols : ℤ
  output_dir : String
  confidence_threshold : ℚ
  search_budget : ℚ
  video_id : String
deriving DecidableEq

/-- Shallow embedding of TStarFramework.__init__ (lines 44-104 of the
source): it assigns every argument to a field, derives video_id from the
video path, joins the output directory with the video id and creates it on
disk (I/O, elided), and raises nothing: the body contains no validation of
search_budget, grid shape or search_nframes and no raise statement.  The
Except codomain records the InvalidConfiguration rejection the spec
prescribes; the source never takes that branch. -/
def TStarFramework_init (video_path question options : String)
    (search_nframes grid_rows grid_cols : ℤ) (output_dir : String)
    (confidence_threshold search_budget : ℚ) :
    Except ConfigErr TStarFrameworkState :=
  .ok { video_path := video_path, question := question, options := options,
        search_nframes := search_nframes, grid_rows := grid_rows,
        grid_cols := grid_cols,
        output_dir := output_dir ++ "/" ++ python_basename_id video_path,
        confidence_threshold := confidence_threshold,
        search_budget := search_budget,
        video_id := python_basename_id video_path }

/-- Claim C6 counterexample: the concrete configuration with
search_nframes = 0 (K ≤ 0), grid_rows = grid_cols = 0 (batch size ≤ 0) and
search_budget = -1 (budget ≤ 0) is not rejected: construction succeeds and
does not surface InvalidConfiguration. -/
theorem C6_counterexample :
    (TStarFramework_init "v.mp4" "q?" "A" 0 0 0 "./output"
      (6/10) (-1)).isOk = true ∧
    TStarFramework_init "v.mp4" "q?" "A" 0 0 0 "./output" (6/10) (-1) ≠
      .error .invalidConfiguration :=
  ⟨rfl, fun h => Except.noConfusion h⟩

/-- Claim C6 (amended): TStarFramework.__init__ performs no configuration
validation: for every configuration, including budget ≤ 0, batch size ≤ 0
and K ≤ 0, construction succeeds (never surfaces an InvalidConfiguration
error) and stores the configuration values unchanged, proceeding as if the
configuration were valid. -/
theorem C6_amended_init_never_rejects
    (vp q o : String) (k rows cols : ℤ) (od : String) (ct sb : ℚ) :
    (TStarFramework_init vp q o k rows cols od ct sb).isOk = true ∧
    ∀ st, TStarFramework_init vp q o k rows cols od ct sb = .ok st →
      st.search_nframes = k ∧ st.grid_rows = rows ∧ st.grid_cols = cols ∧
      st.search_budget = sb := by
  refine ⟨rfl, ?_⟩
  intro st hst
  cases hst
  exact ⟨rfl, rfl, rfl, rfl⟩

theorem C6_witness :
    ({ video_path := "v.mp4", question := "q?", options := "A",
       search_nframes := 0, grid_rows := 0, grid_cols := 0,
       output_dir := "./output" ++ "/" ++ python_basename_id "v.mp4",
       confidence_threshold := 6/10, search_budget := -1,
       video_id := python_basename_id "v.mp4" } :
         TStarFrameworkState).search_nframes = 0 ∧
    ({ video_path := "v.mp4", question := "q?", options := "A",
       search_nframes := 0, grid_rows := 0, grid_cols := 0,
       output_dir := "./output" ++ "/" ++ python_basename_id "v.mp4",
       confidence_threshold := 6/10, search_budget := -1,
       video_id := python_basename_id "v.mp4" } :
         TStarFrameworkState).grid_rows = 0 ∧
    ({ video_path := "v.mp4", question := "q?", options := "A",
       search_nframes := 0, grid_rows := 0, grid_cols := 0,
       output_dir := "./output" ++ "/" ++ python_basename_id "v.mp4",
       confidence_threshold := 6/10, search_budget := -1,
       video_id := python_basename_id "v.mp4" } :
         TStarFrameworkState).grid_cols = 0 ∧
    ({ video_path := "v.mp4", question := "q?", options := "A",
       search_nframes := 0, grid_rows := 0, grid_cols := 0,
       output_dir := "./output" ++ "/" ++ python_basename_id "v.mp4",
       confidence_threshold := 6/10, search_budget := -1,
       video_id := python_basename_id "v.mp4" } :
         TStarFrameworkState).search_budget = -1 :=
  (C6_amended_init_never_rejects "v.mp4" "q?" "A" 0 0 0 "./output"
    (6/10) (-1)).2 _ rfl

/-- Inverse-CDF weighted pick: numpy takes a uniform draw u in [0,1) from
its generator and selects the first index whose cumulative weight exceeds
the threshold u * (total weight); zero-weight entries are skipped while the
threshold is below the remaining mass. -/
def pickIndex : List ℚ → ℚ → ℕ
  | [], _ => 0
  | w :: ws, t => if t < w then 0 else pickIndex ws (t - w) + 1

/-- Interface model of np.random.choice(n, size, replace=False, p):
successive weighted picks, zeroing out the weight of each chosen index.
The stream us is the sequence of uniform draws numpy takes from its global
Mersenne-Twister state: the source calls np.random.choice with no seed and
no Generator argument, so the draws are hidden global state, which this
embedding makes explicit. -/
def choiceNoReplace : ℕ → List ℚ → List ℚ → List ℕ
  | 0, _, _ => []
  | _ + 1, _, [] => []
  | k + 1, w, u :: us =>
    pickIndex w (u * w.sum) ::
      choiceNoReplace k (w.set (pickIndex w (u * w.sum)) 0) us

/-- Embedding of last_score_distribution /= last_score_distribution.sum(). -/
def normalizeDist (l : List ℚ) : List ℚ := l.map (fun x => x / l.sum)

/-- Shallow embedding of the final-iteration frame selection in
save_score_history_as_gif (lines 371-381 of the source): on the last
Score_history entry the method normalizes the distribution and draws 8
indices without replacement via np.random.choice.  rng is the stream of
uniform draws of numpy's global generator; the Python method offers no
parameter that determines it. -/
def finalVisitingSelection (rng : List ℚ)
    (score_history : List (List ℚ)) : List ℕ :=
  match score_history.getLast? with
  | none => []
  | some last => choiceNoReplace 8 (normalizeDist last) rng

/-- Claim C7 counterexample: with the configuration, video and score
history fixed (one recorded uniform distribution over 10 frames), two
states of numpy's global generator (draw streams all-zero versus first
draw 0.95) give different selected index sequences, so the selection is
not a function of any explicitly supplied seed or input: it reads hidden
global state, refuting determinism under a fixed seed. -/
theorem C7_counterexample :
    finalVisitingSelection [0, 0, 0, 0, 0, 0, 0, 0]
      [[1, 1, 1, 1, 1, 1, 1, 1, 1, 1]] = [0, 1, 2, 3, 4, 5, 6, 7] ∧
    finalVisitingSelection [95/100, 0, 0, 0, 0, 0, 0, 0]
      [[1, 1, 1, 1, 1, 1, 1, 1, 1, 1]] = [9, 0, 1, 2, 3, 4, 5, 6] ∧
    ([0, 1, 2, 3, 4, 5, 6, 7] : List ℕ) ≠ [9, 0, 1, 2, 3, 4, 5, 6] := by
  refine ⟨?_, ?_, by decide⟩
  · norm_num [finalVisitingSelection, choiceNoReplace, pickIndex,
      normalizeDist, List.sum]
  · norm_num [finalVisitingSelection, choiceNoReplace, pickIndex,
      normalizeDist, List.sum]

/-- Claim C7 (amended): the random selection is reproducible only relative
to numpy's hidden global generator state: once that stream of draws is
fixed (made explicit), the final-iteration selection is a deterministic
function of the last recorded score distribution alone - two searchers
whose histories end in the same distribution select the same indices. -/
theorem C7_amended_determinism_relative_to_global_state
    (rng : List ℚ) (h1 h2 : List (List ℚ))
    (h : h1.getLast? = h2.getLast?) :
    finalVisitingSelection rng h1 = finalVisitingSelection rng h2 := by
  unfold finalVisitingSelection
  rw [h]

theorem C7_witness :
    (([[1], [2, 3]] : List (List ℚ)).getLast? =
      ([[2, 3]] : List (List ℚ)).getLast?) ∧
    finalVisitingSelection [0] [[1], [2, 3]] =
      finalVisitingSelection [0] [[2, 3]] :=
  ⟨by decide,
   C7_amended_determinism_relative_to_global_state [0] [[1], [2, 3]]
     [[2, 3]] (by decide)⟩

/-- Modelled from the spec: the Result Selector of
TStarSearcher.search_with_visualization, whose implementation
(TStar/interface_searcher.py) is not part of the two source files.  Orders
the belief entries by score descending, ties broken by ascending frame
index (earlier frame wins). -/
def select_ranked (belief : List ℚ) : List (ℕ × ℚ) :=
  List.insertionSort
    (fun a b : ℕ × ℚ => b.2 < a.2 ∨ (a.2 = b.2 ∧ a.1 ≤ b.1)) belief.enum

/-- Modelled from the spec: the search entry point of TStarSearcher (not
among the source files; only its caller TStarFramework.perform_search is).
From the final belief it takes the top K ranked frame indices (clamped to
total_frame_num = belief.length by the take), re-sorts them ascending, and
returns them with their timestamps (frame index times the video's sampling
interval in seconds), so frames are handed to QA in timestamp-ascending
order. -/
def search_entry (belief : List ℚ) (K : ℕ) (frame_interval : ℚ) :
    List ℕ × List ℚ :=
  (List.insertionSort (· ≤ ·) (((select_ranked belief).take K).map Prod.fst),
   (List.insertionSort (· ≤ ·) (((select_ranked belief).take K).map Prod.fst)).map
     (fun i : ℕ => (i : ℚ) * frame_interval))

/-- Claim C8: for every final belief (one entry per frame), requested K and
nonnegative sampling interval, the search entry point returns frames and
timestamps with len(frames) = len(timestamps) = min(K, total_frame_num),
and the timestamps are monotonically non-decreasing. -/
theorem C8_search_output_shape (belief : List ℚ) (K : ℕ) (interval : ℚ)
    (h : 0 ≤ interval) :
    (search_entry belief K interval).1.length = min K belief.length ∧
    (search_entry belief K interval).2.length = min K belief.length ∧
    List.Sorted (· ≤ ·) (search_entry belief K interval).2 := by
  have hrank : (select_ranked belief).length = belief.length := by
    unfold select_ranked
    rw [(List.perm_insertionSort _ belief.enum).length_eq, List.enum_length]
  have htop : (((select_ranked belief).take K).map Prod.fst).length =
      min K belief.length := by
    rw [List.length_map, List.length_take, hrank]
  have hsel : (List.insertionSort (· ≤ ·)
      (((select_ranked belief).take K).map Prod.fst)).length =
      min K belief.length := by
    rw [(List.perm_insertionSort _ _).length_eq, htop]
  have hsorted : List.Sorted (· ≤ ·) (List.insertionSort (· ≤ ·)
      (((select_ranked belief).take K).map Prod.fst)) :=
    List.sorted_insertionSort _ _
  refine ⟨hsel, ?_, ?_⟩
  · unfold search_entry
    rw [List.length_map, hsel]
  · unfold search_entry
    exact List.Pairwise.map (fun i : ℕ => (i : ℚ) * interval)
      (fun a b hab => mul_le_mul_of_nonneg_right (Nat.cast_le.mpr hab) h)
      hsorted

theorem C8_witness :
    (0 : ℚ) ≤ 1 ∧
    ((search_entry [1/2, 1] 1 1).1.length =
       min 1 ([1/2, 1] : List ℚ).length ∧
     (search_entry [1/2, 1] 1 1).2.length =
       min 1 ([1/2, 1] : List ℚ).length ∧
     List.Sorted (· ≤ ·) (search_entry [1/2, 1] 1 1).2) :=
  ⟨by norm_num, C8_search_output_shape [1/2, 1] 1 1 (by norm_num)⟩

/-- Errors load_video_frames raises before reading any frame: the two
ValueError sites (video cannot be opened; zero reported frames) and the
float division by zero Python would hit when num_frames is 0 (after
num_frames = min(num_frames, total_frames) = 0). -/
inductive VideoErr where
  | cannotOpen : VideoErr
  | zeroFrames : VideoErr
  | divByZero : VideoErr
deriving DecidableEq

/-- Shallow embedding of load_video_frames (utilites.py lines 39-69),
restricted to its sampling arithmetic: which source frame indices the
function seeks to.  A video is its openable flag plus its reported frame
count; the pixel data read at those indices is external (a failed
cap.read() only truncates the returned list, never changes an index).
step is the Python float total_frames / num_frames, modelled exactly over
ℚ, and each sampled index is int(math.floor(i * step)). -/
def load_video_frames (isOpened : Bool) (total_frames : ℕ)
    (num_frames : ℕ) : Except VideoErr (List ℕ) :=
  if isOpened = false then .error .cannotOpen
  else if total_frames = 0 then .error .zeroFrames
  else if min num_frames total_frames = 0 then .error .divByZero
  else
    .ok ((List.range (min num_frames total_frames)).map
      (fun i : ℕ => (⌊(i : ℚ) * ((total_frames : ℚ) /
        ((min num_frames total_frames : ℕ) : ℚ))⌋).toNat))

lemma getD_map_range {f : ℕ → ℕ} {n i : ℕ} (h : i < n) :
    (((List.range n).map f).getD i 0) = f i := by
  rw [List.getD_eq_getElem?_getD, List.getElem?_map, List.getElem?_range h]
  rfl

lemma floor_mul_lt_floor_mul (step : ℚ) (hstep : 1 ≤ step) {a b : ℕ}
    (hab : a < b) :
    (⌊(a : ℚ) * step⌋).toNat < (⌊(b : ℚ) * step⌋).toNat := by
  have hcast : (a : ℚ) + 1 ≤ (b : ℚ) := by exact_mod_cast hab
  have key : (a : ℚ) * step + 1 ≤ (b : ℚ) * step := by
    calc (a : ℚ) * step + 1 ≤ (a : ℚ) * step + step := by linarith
    _ = ((a : ℚ) + 1) * step := by ring
    _ ≤ (b : ℚ) * step := mul_le_mul_of_nonneg_right hcast (by linarith)
  have ha0 : (0 : ℚ) ≤ (a : ℚ) * step :=
    mul_nonneg (Nat.cast_nonneg a) (by linarith)
  have hfa : 0 ≤ ⌊(a : ℚ) * step⌋ := Int.floor_nonneg.mpr ha0
  have hlt : ⌊(a : ℚ) * step⌋ + 1 ≤ ⌊(b : ℚ) * step⌋ := by
    have hmono := Int.floor_le_floor key
    rwa [Int.floor_add_one] at hmono
  exact (Int.toNat_lt_toNat (by omega)).mpr (by omega)

/-- Claim C9: load_video_frames raises ValueError when the video cannot be
opened or reports zero frames; otherwise, for num_frames ≥ 1 and a nonzero
frame count it succeeds, and the returned sampling index list has length
min(num_frames, total_frames), entry i equal to
floor(i * total_frames / min(num_frames, total_frames)), and is strictly
increasing with every entry below total_frames. -/
theorem C9_load_video_frames_sampling
    (total_frames num_frames : ℕ) (l : List ℕ)
    (htot : 0 < total_frames) (hnum : 1 ≤ num_frames)
    (hl : load_video_frames true total_frames num_frames = .ok l) :
    (load_video_frames false total_frames num_frames =
      .error .cannotOpen) ∧
    (load_video_frames true 0 num_frames = .error .zeroFrames) ∧
    l.length = min num_frames total_frames ∧
    (∀ i, i < min num_frames total_frames →
      l.getD i 0 = (⌊(i : ℚ) * ((total_frames : ℚ) /
        ((min num_frames total_frames : ℕ) : ℚ))⌋).toNat) ∧
    List.Pairwise (fun a b : ℕ => a < b) l ∧
    (∀ x ∈ l, x < total_frames) := by
  have hmin : min num_frames total_frames ≠ 0 := by omega
  have hminpos : 0 < min num_frames total_frames := by omega
  have hminq : (0 : ℚ) < ((min num_frames total_frames : ℕ) : ℚ) := by
    exact_mod_cast hminpos
  have hstep : (1 : ℚ) ≤ (total_frames : ℚ) /
      ((min num_frames total_frames : ℕ) : ℚ) := by
    rw [one_le_div hminq]
    exact_mod_cast min_le_right num_frames total_frames
  have hok : load_video_frames true total_frames num_frames =
      .ok ((List.range (min num_frames total_frames)).map
        (fun i : ℕ => (⌊(i : ℚ) * ((total_frames : ℚ) /
          ((min num_frames total_frames : ℕ) : ℚ))⌋).toNat)) := by
    unfold load_video_frames
    rw [if_neg (by simp), if_neg (by omega), if_neg hmin]
  have hleq : l = (List.range (min num_frames total_frames)).map
      (fun i : ℕ => (⌊(i : ℚ) * ((total_frames : ℚ) /
        ((min num_frames total_frames : ℕ) : ℚ))⌋).toNat) := by
    rw [hok] at hl
    exact (Except.ok.inj hl).symm
  subst hleq
  refine ⟨by unfold load_video_frames; rfl,
          by unfold load_video_frames; rfl, ?_, ?_, ?_, ?_⟩
  · rw [List.length_map, List.length_range]
  · intro i hi
    exact getD_map_range hi
  · rw [List.pairwise_map]
    exact (List.pairwise_lt_range _).imp
      (fun hab => floor_mul_lt_floor_mul _ hstep hab)
  · intro x hx
    obtain ⟨i, hi, hfx⟩ := List.mem_map.mp hx
    have hilt : i < min num_frames total_frames := List.mem_range.mp hi
    have hflt : ⌊(i : ℚ) * ((total_frames : ℚ) /
        ((min num_frames total_frames : ℕ) : ℚ))⌋ < (total_frames : ℤ) := by
      rw [Int.floor_lt]
      have hlt2 : (i : ℚ) * ((total_frames : ℚ) /
          ((min num_frames total_frames : ℕ) : ℚ)) <
          ((min num_frames total_frames : ℕ) : ℚ) *
            ((total_frames : ℚ) / ((min num_frames total_frames : ℕ) : ℚ)) := by
        apply mul_lt_mul_of_pos_right
        · exact_mod_cast hilt
        · exact div_pos (by exact_mod_cast htot) hminq
      rw [mul_div_cancel₀ (total_frames : ℚ) (ne_of_gt hminq)] at hlt2
      exact_mod_cast hlt2
    rw [← hfx]
    have h0 : (0 : ℚ) ≤ (i : ℚ) * ((total_frames : ℚ) /
        ((min num_frames total_frames : ℕ) : ℚ)) :=
      mul_nonneg (Nat.cast_nonneg i) (by linarith)
    have := Int.floor_nonneg.mpr h0
    omega

theorem C9_witness :
    0 < 2 ∧ 1 ≤ 2 ∧ load_video_frames true 2 2 = .ok [0, 1] ∧
    (load_video_frames false 2 2 = .error .cannotOpen ∧
     load_video_frames true 0 2 = .error .zeroFrames ∧
     ([0, 1] : List ℕ).length = min 2 2 ∧
     (∀ i, i < min 2 2 →
       (([0, 1] : List ℕ)).getD i 0 = (⌊(i : ℚ) * ((2 : ℚ) /
         ((min 2 2 : ℕ) : ℚ))⌋).toNat) ∧
     List.Pairwise (fun a b : ℕ => a < b) [0, 1] ∧
     (∀ x ∈ [0, 1], x < 2)) := by
  have hl : load_video_frames true 2 2 = .ok [0, 1] := by
    norm_num [load_video_frames, List.range_succ]
  exact ⟨by norm_num, by norm_num, hl,
    C9_load_video_frames_sampling 2 2 [0, 1] (by norm_num) (by norm_num) hl⟩

/-- ZeroDivisionError sites of extract_frames: Python raises either at
video_fps // fps when the requested fps is 0, or at
frame_count % frame_interval when int(video_fps // fps) is 0. -/
inductive ExtractErr where
  | fpsDivByZero : ExtractErr
  | modByZero : ExtractErr
deriving DecidableEq

/-- Frame loop of extract_frames: cap.read() succeeds n more times; for
each frame read, Python evaluates frame_count % frame_interval, which
raises when the interval is 0, and otherwise saves the frame when the
remainder is 0.  Returns saved_count.  Int.emod agrees with Python's %
for the nonnegative divisors that arise from a nonnegative reported fps. -/
def extract_loop (frame_interval : ℤ) : ℕ → ℕ → ℕ → Except ExtractErr ℕ
  | _, saved_count, 0 => .ok saved_count
  | frame_count, saved_count, n + 1 =>
    if frame_interval = 0 then .error .modByZero
    else if (frame_count : ℤ) % frame_interval = 0 then
      extract_loop frame_interval (frame_count + 1) (saved_count + 1) n
    else
      extract_loop frame_interval (frame_count + 1) saved_count n

/-- Shallow embedding of extract_frames (utilites.py lines 281-320): the
reported video fps and the requested fps are numbers (a Python float and
an int, modelled over ℚ); the video supplies n_readable frames before
cap.read() returns false.  The sampling interval is int(video_fps // fps):
float floor division, so the floor of the exact quotient. -/
def extract_frames (video_fps fps : ℚ) (n_readable : ℕ) :
    Except ExtractErr ℕ :=
  if fps = 0 then .error .fpsDivByZero
  else extract_loop ⌊video_fps / fps⌋ 0 0 n_readable

/-- Claim C10 counterexample: a video that opens but yields no readable
frame, with reported fps 0.5 strictly below the requested fps 1, completes
normally with 0 saved frames: the modulo by the zero interval is never
evaluated, so not every video with video_fps < fps raises
ZeroDivisionError. -/
theorem C10_counterexample :
    extract_frames (1/2) 1 0 = .ok 0 ∧
    (1 : ℚ) / 2 < 1 ∧
    extract_frames (1/2) 1 0 ≠ .error .modByZero := by
  refine ⟨?_, by norm_num, ?_⟩
  · rw [extract_frames, if_neg (by norm_num)]
    rfl
  · rw [extract_frames, if_neg (by norm_num)]
    intro h
    exact Except.noConfusion h

lemma extract_loop_isOk (frame_interval : ℤ) (h : frame_interval ≠ 0) :
    ∀ n frame_count saved_count,
      (extract_loop frame_interval frame_count saved_count n).isOk = true := by
  intro n
  induction n with
  | zero => intro fc sc; rfl
  | succ m ih =>
    intro fc sc
    rw [extract_loop, if_neg h]
    by_cases hmod : (fc : ℤ) % frame_interval = 0
    · rw [if_pos hmod]; exact ih (fc + 1) (sc + 1)
    · rw [if_neg hmod]; exact ih (fc + 1) sc

/-- Claim C10 (amended): extract_frames computes the sampling interval as
int(video_fps // fps) and uses it as a modulus, so a video with
0 ≤ video_fps < fps raises ZeroDivisionError at the first frame read
(provided at least one frame is readable; with none, the call completes
normally), and under the precondition video_fps ≥ fps ≥ 1 the interval is
positive and the division-by-zero branch is unreachable. -/
theorem C10_amended_interval_zero_division (video_fps fps : ℚ) (n : ℕ) :
    (0 ≤ video_fps → video_fps < fps → 1 ≤ n →
      extract_frames video_fps fps n = .error .modByZero) ∧
    (1 ≤ fps → fps ≤ video_fps →
      1 ≤ ⌊video_fps / fps⌋ ∧
      (extract_frames video_fps fps n).isOk = true) := by
  constructor
  · intro h0 hlt hn
    have hfpos : (0 : ℚ) < fps := lt_of_le_of_lt h0 hlt
    have hzero : ⌊video_fps / fps⌋ = 0 := by
      rw [Int.floor_eq_zero_iff]
      constructor
      · exact div_nonneg h0 (le_of_lt hfpos)
      · rw [div_lt_one hfpos]
        exact hlt
    rw [extract_frames, if_neg (ne_of_gt hfpos), hzero]
    obtain ⟨m, rfl⟩ : ∃ m, n = m + 1 := ⟨n - 1, by omega⟩
    rw [extract_loop, if_pos rfl]
  · intro h1 hle
    have hfpos : (0 : ℚ) < fps := lt_of_lt_of_le zero_lt_one h1
    have hfloor : 1 ≤ ⌊video_fps / fps⌋ := by
      rw [Int.le_floor]
      rw [show ((1 : ℤ) : ℚ) = 1 from rfl, one_le_div hfpos]
      exact hle
    refine ⟨hfloor, ?_⟩
    rw [extract_frames, if_neg (ne_of_gt hfpos)]
    exact extract_loop_isOk _ (by omega) n 0 0

theorem C10_amended_witness :
    extract_frames (1/2) 1 1 = .error .modByZero ∧
    (1 ≤ ⌊(2 : ℚ) / 1⌋ ∧ (extract_frames 2 1 3).isOk = true) :=
  ⟨(C10_amended_interval_zero_division (1/2) 1 1).1 (by norm_num)
     (by norm_num) (by norm_num),
   (C10_amended_interval_zero_division 2 1 3).2 (by norm_num) (by norm_num)⟩
